import Mathlib

/-!
Verification of the `pquerna/cachecontrol` HTTP caching control-plane library
against its specification.

The development shallowly embeds the decision/freshness engine of
`reasons.go` (`calcReasons`, `hasFreshness`, `cachableStatusCode`) and, since
the `Cache-Control` directive parser itself is not part of the provided
sources (only its tests are), a parser modelled from the specification's
grammar (spec sections 3 and 4.1), kept consistent with the repository's own
parser tests (`TestMaxAge`, `TestSMaxAge`, `TestResPrivateExtensionQuoted`,
`TestResQuoteMismatch`, ...).

Time is modelled at second granularity: a `GoTime` is an integer count of
seconds since Go's zero time instant, so Go's zero `time.Time` value is `0`,
`time.Time.Sub` is integer subtraction and `time.Time.Add` of a
seconds-duration is integer addition.  `time.Now()` readings are supplied as
an explicit sequence `clock : Nat → GoTime`, the `k`-th `time.Now()` call of
one evaluation returning `clock k`.
-/

namespace CacheControl

/-- Seconds since Go's zero time instant; `0` is the zero `time.Time` value. -/
abbrev GoTime := Int

/-- A date-valued HTTP header as seen by `calcReasons`: absent
(`Header.Get` returns `""`), present but not a valid HTTP date,
or present and parsing to an instant. -/
inductive HeaderDate where
  | absent
  | invalid
  | valid (t : GoTime)
deriving DecidableEq, Repr

/-- Whether `respHeaders.Get(h) != ""` holds for a date-valued header. -/
def HeaderDate.present : HeaderDate → Bool
  | .absent => false
  | .invalid => true
  | .valid _ => true

/-- Embedding of `http.ParseTime` applied to a date header value; `.error ()`
is a parse failure (including the empty string of an absent header). -/
def parseHTTPTime : HeaderDate → Except Unit GoTime
  | .absent => .error ()
  | .invalid => .error ()
  | .valid t => .ok t

/-- Grammar errors of the `Cache-Control` directive parser (spec section 4.1:
`ErrQuoteMismatch`, `ErrPublicNoArgs`, `ErrProxyRevalidateNoArgs`, and a
delta-seconds error specific to each numeric directive). -/
inductive CCErr where
  | quoteMismatch
  | maxAgeDeltaSeconds
  | sMaxAgeDeltaSeconds
  | maxStaleDeltaSeconds
  | minFreshDeltaSeconds
  | reqMaxAgeDeltaSeconds
  | publicNoArgs
  | proxyRevalidateNoArgs
deriving DecidableEq, Repr

/-- One raw directive of a `Cache-Control` header value: a name, whether an
`=` argument was given, and the argument text (quotes already stripped). -/
structure RawDirective where
  name : String
  hasArg : Bool
  arg : String
deriving DecidableEq, Repr

/-- Tokenizer state: accumulated name and argument characters of the current
directive, whether an `=` was seen, whether any character of the current
directive was seen, and the quoted-string scanning flags. -/
structure TokState where
  name : List Char
  arg : List Char
  seenEq : Bool
  started : Bool
  inQuote : Bool
  esc : Bool
deriving DecidableEq, Repr

def TokState.init : TokState := ⟨[], [], false, false, false, false⟩

/-- Append one content character to the current directive (to the argument
once `=` was seen, to the name before that). -/
def TokState.push (st : TokState) (c : Char) : TokState :=
  if st.seenEq then { st with arg := st.arg ++ [c], started := true }
  else { st with name := st.name ++ [c], started := true }

/-- Finish the current directive, appending it to the accumulator (a
separator with nothing accumulated emits nothing). -/
def TokState.flush (st : TokState) (acc : List RawDirective) : List RawDirective :=
  if st.started then acc ++ [⟨String.mk st.name, st.seenEq, String.mk st.arg⟩] else acc

/-- A blank separator character (space or horizontal tab). -/
def isBlank (c : Char) : Bool := c == ' ' || c == '\t'

/-- Modelled from the spec: the directive tokenizer of section 4.1 (the parser
sources are not under `src/`).  Directives are separated by runs of blanks —
the repository's own tests (`TestResPrivateExtensionQuoted`,
`TestResMultipleNoCacheTabExtension`) show blank-separated directive lists —
each directive being `name` or `name=value` with the value either a bare
token or a double-quoted string in which a backslash escapes the following
character; an unterminated quote is the fatal `ErrQuoteMismatch`. -/
def tokGo : List Char → TokState → List RawDirective → Except CCErr (List RawDirective)
  | [], st, acc => if st.inQuote then .error .quoteMismatch else .ok (st.flush acc)
  | c :: cs, st, acc =>
    if st.inQuote then
      if st.esc then tokGo cs (TokState.push { st with esc := false } c) acc
      else if c == '\\' then tokGo cs { st with esc := true } acc
      else if c == '"' then tokGo cs { st with inQuote := false } acc
      else tokGo cs (st.push c) acc
    else if c == '"' then tokGo cs { st with inQuote := true, started := true } acc
    else if isBlank c then tokGo cs TokState.init (st.flush acc)
    else if c == '=' && !st.seenEq then tokGo cs { st with seenEq := true, started := true } acc
    else tokGo cs (st.push c) acc

/-- Split a raw `Cache-Control` header value into directives. -/
def tokenizeCC (s : String) : Except CCErr (List RawDirective) :=
  tokGo s.data TokState.init []

/-- Modelled from the spec (section 3): values exceeding a representable
maximum are clamped, not rejected. -/
def deltaSecondsMax : Nat := 2147483647

def digitVal (c : Char) : Nat := c.toNat - 48

/-- Decimal value of a digit string, most significant digit first. -/
def natFromDigits (ds : List Char) : Nat := ds.foldl (fun a c => 10 * a + digitVal c) 0

/-- Modelled from the spec: the delta-seconds argument grammar (section 3,
`DeltaSeconds`; parser sources are not under `src/`).  The argument must be
present, non-empty and entirely decimal digits — so a missing value, `-1` or
a non-numeric argument all fail — and an oversized value clamps. -/
def parseDeltaSeconds (d : RawDirective) : Option Nat :=
  if d.hasArg && !d.arg.data.isEmpty && d.arg.data.all Char.isDigit then
    some (min (natFromDigits d.arg.data) deltaSecondsMax)
  else none

/-- The parsed response-side directive set (spec section 3,
`ResponseCacheDirectives`); `-1` in `MaxAge`/`SMaxAge` is the "directive
absent" sentinel. -/
structure ResponseCacheDirectives where
  MustRevalidate : Bool := false
  NoCachePresent : Bool := false
  NoCache : List String := []
  NoStore : Bool := false
  NoTransform : Bool := false
  Public : Bool := false
  ProxyRevalidate : Bool := false
  PrivatePresent : Bool := false
  Private : List String := []
  MaxAge : Int := -1
  SMaxAge : Int := -1
  Extensions : List String := []
deriving DecidableEq, Repr

/-- The parsed request-side directive set (spec section 3,
`RequestCacheDirectives`). -/
structure RequestCacheDirectives where
  NoStore : Bool := false
  NoCache : Bool := false
  MaxAge : Int := -1
  MaxStale : Int := -1
  MaxStaleSet : Bool := false
  MinFresh : Int := -1
  NoTransform : Bool := false
  OnlyIfCached : Bool := false
  Extensions : List String := []
deriving DecidableEq, Repr

/-- Lower-case one ASCII character (directive names are case-insensitive,
spec section 3). -/
def lowerChar (c : Char) : Char :=
  if 65 ≤ c.toNat ∧ c.toNat ≤ 90 then Char.ofNat (c.toNat + 32) else c

/-- Lower-case a directive name for matching. -/
def lowerStr (s : String) : String := String.mk (s.data.map lowerChar)

/-- Strip leading and trailing blanks from a field name. -/
def trimChars (l : List Char) : List Char :=
  ((l.dropWhile isBlank).reverse.dropWhile isBlank).reverse

/-- Split a character list at commas. -/
def splitCommaAux : List Char → List Char → List (List Char)
  | [], cur => [cur.reverse]
  | c :: cs, cur =>
    if c = ',' then cur.reverse :: splitCommaAux cs []
    else splitCommaAux cs (c :: cur)

/-- Split a `private`/`no-cache` argument into trimmed field names
(spec section 3 invariants). -/
def splitFieldNames (s : String) : List String :=
  ((splitCommaAux s.data []).map (fun l => String.mk (trimChars l))).filter
    (fun x => !x.data.isEmpty)

/-- Modelled from the spec: per-directive validation rules of section 4.1 for
the response grammar (parser sources are not under `src/`), consistent with
the repository's parser tests.  `public` and `proxy-revalidate` reject an
argument; `max-age`/`s-maxage` require a valid delta-seconds argument;
`no-cache`/`private` may be bare or carry a field-name list; anything
unrecognized is recorded verbatim in `Extensions`. -/
def applyRespDir (acc : ResponseCacheDirectives) (d : RawDirective) :
    Except CCErr ResponseCacheDirectives :=
  let n := lowerStr d.name
  if n = "must-revalidate" then .ok { acc with MustRevalidate := true }
  else if n = "no-cache" then
    if d.hasArg && !d.arg.data.isEmpty then
      .ok { acc with NoCachePresent := true, NoCache := acc.NoCache ++ splitFieldNames d.arg }
    else .ok { acc with NoCachePresent := true }
  else if n = "no-store" then .ok { acc with NoStore := true }
  else if n = "no-transform" then .ok { acc with NoTransform := true }
  else if n = "public" then
    if d.hasArg then .error .publicNoArgs else .ok { acc with Public := true }
  else if n = "proxy-revalidate" then
    if d.hasArg then .error .proxyRevalidateNoArgs else .ok { acc with ProxyRevalidate := true }
  else if n = "private" then
    if d.hasArg && !d.arg.data.isEmpty then
      .ok { acc with PrivatePresent := true, Private := acc.Private ++ splitFieldNames d.arg }
    else .ok { acc with PrivatePresent := true }
  else if n = "max-age" then
    match parseDeltaSeconds d with
    | some v => .ok { acc with MaxAge := (v : Int) }
    | none => .error .maxAgeDeltaSeconds
  else if n = "s-maxage" then
    match parseDeltaSeconds d with
    | some v => .ok { acc with SMaxAge := (v : Int) }
    | none => .error .sMaxAgeDeltaSeconds
  else
    .ok { acc with Extensions :=
            acc.Extensions ++ [if d.hasArg then d.name ++ "=" ++ d.arg else d.name] }

/-- Fold the response-directive interpretation over a directive list. -/
def interpRespDirs : ResponseCacheDirectives → List RawDirective →
    Except CCErr ResponseCacheDirectives
  | acc, [] => .ok acc
  | acc, d :: ds =>
    match applyRespDir acc d with
    | .error e => .error e
    | .ok acc2 => interpRespDirs acc2 ds

/-- Modelled from the spec: `ParseResponseCacheControl` (exposed interface of
section 6; sources not under `src/`).  Empty or whitespace-only input parses
to the all-absent directive set. -/
def ParseResponseCacheControl (s : String) : Except CCErr ResponseCacheDirectives :=
  match tokenizeCC s with
  | .error e => .error e
  | .ok ds => interpRespDirs {} ds

/-- Modelled from the spec: per-directive validation rules of section 4.1 for
the request grammar (parser sources are not under `src/`): `max-age` and
`min-fresh` require a delta-seconds argument, `max-stale` may be bare
(unbounded) or numeric, flags are bare, anything unrecognized goes to
`Extensions`. -/
def applyReqDir (acc : RequestCacheDirectives) (d : RawDirective) :
    Except CCErr RequestCacheDirectives :=
  let n := lowerStr d.name
  if n = "no-store" then .ok { acc with NoStore := true }
  else if n = "no-cache" then .ok { acc with NoCache := true }
  else if n = "no-transform" then .ok { acc with NoTransform := true }
  else if n = "only-if-cached" then .ok { acc with OnlyIfCached := true }
  else if n = "max-age" then
    match parseDeltaSeconds d with
    | some v => .ok { acc with MaxAge := (v : Int) }
    | none => .error .reqMaxAgeDeltaSeconds
  else if n = "max-stale" then
    if d.hasArg then
      match parseDeltaSeconds d with
      | some v => .ok { acc with MaxStale := (v : Int), MaxStaleSet := true }
      | none => .error .maxStaleDeltaSeconds
    else .ok { acc with MaxStaleSet := true }
  else if n = "min-fresh" then
    match parseDeltaSeconds d with
    | some v => .ok { acc with MinFresh := (v : Int) }
    | none => .error .minFreshDeltaSeconds
  else
    .ok { acc with Extensions :=
            acc.Extensions ++ [if d.hasArg then d.name ++ "=" ++ d.arg else d.name] }

/-- Fold the request-directive interpretation over a directive list. -/
def interpReqDirs : RequestCacheDirectives → List RawDirective →
    Except CCErr RequestCacheDirectives
  | acc, [] => .ok acc
  | acc, d :: ds =>
    match applyReqDir acc d with
    | .error e => .error e
    | .ok acc2 => interpReqDirs acc2 ds

/-- Modelled from the spec: `ParseRequestCacheControl` (exposed interface of
section 6; sources not under `src/`). -/
def ParseRequestCacheControl (s : String) : Except CCErr RequestCacheDirectives :=
  match tokenizeCC s with
  | .error e => .error e
  | .ok ds => interpReqDirs {} ds

/-- Whether a header value tokenizes to a directive list containing a
directive named `max-age` (case-insensitively): the "max-age directive is
present in the input" predicate of the sentinel invariant. -/
def mentionsMaxAge (s : String) : Bool :=
  match tokenizeCC s with
  | .error _ => false
  | .ok ds => ds.any (fun d => lowerStr d.name == "max-age")

/-- The disqualification reasons of `reasons.go` lines 25-43, keeping the
source's spelling `ReasonRequestMethodUnkown`. -/
inductive Reason where
  | ReasonRequestMethodPOST
  | ReasonRequestMethodPUT
  | ReasonRequestMethodDELETE
  | ReasonRequestMethodCONNECT
  | ReasonRequestMethodOPTIONS
  | ReasonRequestMethodTRACE
  | ReasonRequestMethodUnkown
  | ReasonRequestNoStore
  | ReasonRequestAuthorizationHeader
  | ReasonResponseNoStore
  | ReasonResponsePrivate
  | ReasonResponseUncachableByDefault
deriving DecidableEq, Repr

/-- `Options` of `reasons.go` lines 45-49. -/
structure Options where
  PrivateCache : Bool
deriving DecidableEq, Repr

/-- The request fields `calcReasons` reads: `req.Method`,
`req.Header.Get("Cache-Control")` and `req.Header.Get("Authorization")`. -/
structure Request where
  method : String
  cacheControl : String
  authorization : String
deriving DecidableEq, Repr

/-- The response-header fields `calcReasons` reads:
`respHeaders.Get("Cache-Control")`, `Get("Expires")` and `Get("Date")`. -/
structure RespHeaders where
  cacheControl : String
  expires : HeaderDate
  date : HeaderDate
deriving DecidableEq, Repr

/-- `cachableStatusCode`, `reasons.go` lines 250-285. -/
def cachableStatusCode (statusCode : Int) : Bool :=
  statusCode == 200 || statusCode == 203 || statusCode == 204 || statusCode == 206 ||
    statusCode == 300 || statusCode == 301 || statusCode == 404 || statusCode == 405 ||
    statusCode == 410 || statusCode == 414 || statusCode == 501

/-- `hasFreshness`, `reasons.go` lines 234-248 (`reqDir` is passed but unused,
as in the source). -/
def hasFreshness (reqDir : RequestCacheDirectives) (respDir : ResponseCacheDirectives)
    (respHeaders : RespHeaders) (opts : Options) : Bool :=
  if !opts.PrivateCache && respDir.SMaxAge != -1 then true
  else if respDir.MaxAge != -1 then true
  else if respHeaders.expires.present then true
  else false

/-- The `switch req.Method` of `reasons.go` lines 68-111. -/
def methodReasons (method : String) (fresh : Bool) : List Reason :=
  if method = "GET" then []
  else if method = "HEAD" then []
  else if method = "POST" then if fresh then [] else [.ReasonRequestMethodPOST]
  else if method = "PUT" then [.ReasonRequestMethodPUT]
  else if method = "DELETE" then [.ReasonRequestMethodDELETE]
  else if method = "CONNECT" then [.ReasonRequestMethodCONNECT]
  else if method = "OPTIONS" then [.ReasonRequestMethodOPTIONS]
  else if method = "TRACE" then [.ReasonRequestMethodTRACE]
  else [.ReasonRequestMethodUnkown]

/-- The request-dependent reason appends of `reasons.go` lines 68-125, in
source order: method switch, request `no-store`, `Authorization` check. -/
def requestReasons (r : Request) (reqDir : RequestCacheDirectives)
    (respDir : ResponseCacheDirectives) (respHeaders : RespHeaders) (opts : Options) :
    List Reason :=
  methodReasons r.method (hasFreshness reqDir respDir respHeaders opts)
    ++ (if reqDir.NoStore then [.ReasonRequestNoStore] else [])
    ++ (if r.authorization ≠ "" ∧
           ¬(respDir.MustRevalidate ∨ respDir.Public ∨ respDir.SMaxAge ≠ -1)
        then [.ReasonRequestAuthorizationHeader] else [])

/-- The response-directive reason appends of `reasons.go` lines 128-134. -/
def respReasons (respDir : ResponseCacheDirectives) (opts : Options) : List Reason :=
  (if respDir.PrivatePresent ∧ ¬opts.PrivateCache then [.ReasonResponsePrivate] else [])
    ++ (if respDir.NoStore then [.ReasonResponseNoStore] else [])

/-- The default-cacheability disjunction of `reasons.go` lines 155-162. -/
def defaultCachable (respDir : ResponseCacheDirectives) (respHeaders : RespHeaders)
    (statusCode : Int) (opts : Options) : Bool :=
  respHeaders.expires.present || respDir.MaxAge != -1 ||
    (respDir.SMaxAge != -1 && !opts.PrivateCache) || cachableStatusCode statusCode ||
    respDir.Public

/-- The expiration computation of `reasons.go` lines 188-211.  Line 194 of the
source guards the `Expires` parse failure with `if err != err`, a condition
that never holds, so a failed parse leaves `expiresIn` at the zero time value
and evaluation continues; line 208 computes
`time.Now().UTC().Add(serverDate.Sub(expiresIn))`, i.e. `now + (Date −
Expires)`.  The `k`-th executed `time.Now()` call returns `clock k`: in the
branch with an unparseable `Date`, `clock 0` is the line-203 fallback read
and `clock 1` the line-208 read. -/
def calcExpiration (respDir : ResponseCacheDirectives) (respHeaders : RespHeaders)
    (opts : Options) (clock : Nat → GoTime) : GoTime :=
  if respDir.SMaxAge != -1 && !opts.PrivateCache then clock 0 + respDir.SMaxAge
  else if respDir.MaxAge != -1 then clock 0 + respDir.MaxAge
  else if respHeaders.expires.present then
    let expiresIn : GoTime :=
      match parseHTTPTime respHeaders.expires with
      | .ok t => t
      | .error _ => 0
    match parseHTTPTime respHeaders.date with
    | .ok serverDate => clock 0 + (serverDate - expiresIn)
    | .error _ =>
      let serverDate := clock 0
      clock 1 + (serverDate - expiresIn)
  else 0

/-- `calcReasons`, `reasons.go` lines 51-214.  The Go return value
`([]Reason, time.Time, error)` is embedded as a triple; an early error return
carries the nil slice and the zero `time.Time` value. -/
def calcReasons (req : Option Request) (statusCode : Int) (respHeaders : RespHeaders)
    (opts : Options) (clock : Nat → GoTime) : List Reason × GoTime × Option CCErr :=
  match ParseResponseCacheControl respHeaders.cacheControl with
  | .error e => ([], 0, some e)
  | .ok respDir =>
    match req with
    | none =>
      (respReasons respDir opts
         ++ (if defaultCachable respDir respHeaders statusCode opts then []
             else [.ReasonResponseUncachableByDefault]),
       calcExpiration respDir respHeaders opts clock, none)
    | some r =>
      match ParseRequestCacheControl r.cacheControl with
      | .error e => ([], 0, some e)
      | .ok reqDir =>
        (requestReasons r reqDir respDir respHeaders opts
           ++ respReasons respDir opts
           ++ (if defaultCachable respDir respHeaders statusCode opts then []
               else [.ReasonResponseUncachableByDefault]),
         calcExpiration respDir respHeaders opts clock, none)

/-- `calcReasons` when every `time.Now()` reading returns the single
instant `now`. -/
def calcReasonsNow (req : Option Request) (statusCode : Int) (respHeaders : RespHeaders)
    (opts : Options) (now : GoTime) : List Reason × GoTime × Option CCErr :=
  calcReasons req statusCode respHeaders opts (fun _ => now)

/-- Outcome of the specification's Freshness/Expiration Engine
(section 4.3): an explicit expiration instant or "absent". -/
inductive SpecExpiration where
  | absent
  | instant (t : GoTime)
deriving DecidableEq, Repr

def twentyFourHours : Int := 86400

/-- Modelled from the spec: the Freshness/Expiration Engine of section 4.3
(the heuristic branch is implemented by the repository's cache-object
expiration code, which is not under `src/` — `reasons.go` line 210 leaves it
as a comment).  Priority order: shared `s-maxage`, then `max-age`, then
`Expires` applied as a delta against the `Date` header relative to `now`,
then the `Last-Modified` heuristic `min(0.10 × (Date − Last-Modified), 24h)`;
an unparseable `Expires` is a hard error (section 7).  `date` is the parsed
`Date` header (or `now` when that header is absent or unparseable, section
4.3 step 3). -/
def expirationSpec (respDir : ResponseCacheDirectives) (date : GoTime)
    (expires : HeaderDate) (lastModified : Option GoTime) (opts : Options)
    (now : GoTime) : Except Unit SpecExpiration :=
  if respDir.SMaxAge != -1 && !opts.PrivateCache then
    .ok (.instant (now + respDir.SMaxAge))
  else if respDir.MaxAge != -1 then
    .ok (.instant (now + respDir.MaxAge))
  else if expires.present then
    match parseHTTPTime expires with
    | .ok e => .ok (.instant (now + (e - date)))
    | .error _ => .error ()
  else
    match lastModified with
    | some lm => .ok (.instant (now + min ((date - lm) / 10) twentyFourHours))
    | none => .ok .absent

example : ParseResponseCacheControl "" = .ok {} := rfl
example : ParseResponseCacheControl " " = .ok {} := rfl
example : (ParseResponseCacheControl "max-age=20").map (·.MaxAge) = .ok 20 := rfl
example : (ParseResponseCacheControl "max-age=0").map (·.MaxAge) = .ok 0 := rfl
example : ParseResponseCacheControl "max-age" = .error .maxAgeDeltaSeconds := rfl
example : ParseResponseCacheControl "max-age=-1" = .error .maxAgeDeltaSeconds := rfl
example : ParseResponseCacheControl "max-age=abc" = .error .maxAgeDeltaSeconds := rfl
example : (ParseResponseCacheControl "s-maxage=20").map (·.SMaxAge) = .ok 20 := rfl
example : ParseResponseCacheControl "foo=\x22" = .error .quoteMismatch := rfl
example : ParseResponseCacheControl "public=Vary" = .error .publicNoArgs := rfl
example :
    ParseResponseCacheControl "private=\x22Set-Cookie,Request-Id\x22 public" =
      .ok { Public := true, PrivatePresent := true,
            Private := ["Set-Cookie", "Request-Id"] } := rfl
example :
    calcReasonsNow (some ⟨"GET", "", ""⟩) 200 ⟨"public", .absent, .absent⟩ ⟨false⟩ 999 =
      ([], 0, none) := rfl
example :
    calcReasonsNow (some ⟨"GET", "", ""⟩) 200 ⟨"private", .absent, .absent⟩ ⟨false⟩ 999 =
      ([.ReasonResponsePrivate], 0, none) := rfl
example :
    calcReasonsNow (some ⟨"GET", "", ""⟩) 200 ⟨"private", .absent, .absent⟩ ⟨true⟩ 999 =
      ([], 0, none) := rfl
example :
    calcReasonsNow (some ⟨"POST", "", ""⟩) 200 ⟨"", .absent, .absent⟩ ⟨false⟩ 999 =
      ([.ReasonRequestMethodPOST], 0, none) := rfl
example :
    (calcReasonsNow (some ⟨"POST", "", ""⟩) 200 ⟨"", .valid 1003600, .valid 1000000⟩
      ⟨false⟩ 999).1 = [] := rfl
example :
    calcReasonsNow (some ⟨"PUT", "", ""⟩) 200 ⟨"", .absent, .absent⟩ ⟨false⟩ 999 =
      ([.ReasonRequestMethodPUT], 0, none) := rfl
example :
    calcReasonsNow (some ⟨"GET", "", "bearer x"⟩) 200 ⟨"", .absent, .absent⟩ ⟨false⟩ 999 =
      ([.ReasonRequestAuthorizationHeader], 0, none) := rfl
example :
    (calcReasonsNow (some ⟨"GET", "", "bearer x"⟩) 200
      ⟨"public max-age=300", .absent, .absent⟩ ⟨false⟩ 999).1 = [] := rfl
example :
    calcReasonsNow none 200 ⟨"", .valid 1003600, .valid 1000000⟩ ⟨false⟩ 5000000 =
      ([], 4996400, none) := rfl

/-- C1: the claim states the Expires-branch expiration is `now + (Expires −
Date)`.  The code (`reasons.go` line 208, `serverDate.Sub(expiresIn)`)
returns `now + (Date − Expires)` instead: at a response whose valid `Expires`
(instant 1003600) lies 3600 s after its valid `Date` (instant 1000000), with
no max-age or s-maxage, evaluation at `now = 5000000` yields expiration
`4996400 = now − 3600`, not `now + 3600` — the sign of the server-declared
freshness window is flipped, contradicting the RFC 7234 rule quoted in the
source comment directly above (lines 180-181). -/
theorem C1_expires_sign_flipped :
    calcReasonsNow none 200 ⟨"", .valid 1003600, .valid 1000000⟩ ⟨false⟩ 5000000 =
      ([], 5000000 - 3600, none) ∧ (5000000 - 3600 : GoTime) ≠ 5000000 + 3600 :=
  ⟨rfl, by decide⟩

/-- C3: the claim states an unparseable `Expires` value is a hard error while
an unparseable `Date` falls back to `now` without error.  The code guards the
`Expires` parse failure with `if err != err` (`reasons.go` line 194), which
never holds: with a present-but-unparseable `Expires` and a valid `Date`
(instant 1000000), evaluation returns no error and silently computes
`now + (Date − zeroTime) = 6000000` from the zero time value.  (The `Date`
fallback half behaves as claimed: an unparseable `Date` also yields no
error.) -/
theorem C3_unparseable_expires_no_error :
    calcReasonsNow none 200 ⟨"", .invalid, .valid 1000000⟩ ⟨false⟩ 5000000 =
      ([], 6000000, none) ∧
    (calcReasonsNow none 200 ⟨"", .valid 1003600, .invalid⟩ ⟨false⟩ 5000000).2.2 =
      none :=
  ⟨rfl, rfl⟩

/-- C4 counterexample: `calcReasons` reads `time.Now()` directly (`reasons.go`
lines 189, 191, 203, 208) rather than a caller-injected instant, and the
branch with a parseable `Expires` but unparseable `Date` performs two clock
reads.  Two evaluations of identical request/status/headers/options whose
first clock reading is the same instant (5000000) but whose second readings
differ by 100 s return different expiration instants, so the result is not a
function of the inputs plus a single "now". -/
theorem C4_clock_counterexample :
    calcReasons none 200 ⟨"", .valid 1003600, .invalid⟩ ⟨false⟩ (fun _ => 5000000) ≠
      calcReasons none 200 ⟨"", .valid 1003600, .invalid⟩ ⟨false⟩
        (fun k => if k == 0 then 5000000 else 5000100) := by
  decide

/-- C4 amended: with the sequence of system-clock readings made an explicit
input, the evaluation is deterministic — if every reading returns the same
instant `t` the result coincides with the single-instant evaluation
`calcReasonsNow` at `t` — and the reason list and error channel do not depend
on the clock at all (only the expiration instant does). -/
theorem C4_deterministic_given_clock :
    (∀ req statusCode respHeaders opts t clock, (∀ k, clock k = t) →
       calcReasons req statusCode respHeaders opts clock =
         calcReasonsNow req statusCode respHeaders opts t) ∧
    (∀ req statusCode respHeaders opts c1 c2,
       (calcReasons req statusCode respHeaders opts c1).1 =
         (calcReasons req statusCode respHeaders opts c2).1 ∧
       (calcReasons req statusCode respHeaders opts c1).2.2 =
         (calcReasons req statusCode respHeaders opts c2).2.2) := by
  constructor
  · intro req s hdrs opts t clock h
    have hc : clock = fun _ => t := funext h
    rw [hc]; rfl
  · intro req s hdrs opts c1 c2
    unfold calcReasons
    rcases hp : ParseResponseCacheControl hdrs.cacheControl with e | respDir
    · exact ⟨rfl, rfl⟩
    · rcases req with _ | r
      · exact ⟨rfl, rfl⟩
      · dsimp only
        generalize ParseRequestCacheControl r.cacheControl = q
        rcases q with e | reqDir
        · exact ⟨rfl, rfl⟩
        · exact ⟨rfl, rfl⟩

/-- C4 witness: the amended determinism theorem applied at a concrete
context and the constant clock at instant 7. -/
theorem C4_deterministic_given_clock_witness :
    calcReasons none 200 ⟨"", .absent, .absent⟩ ⟨false⟩ (fun _ => 7) =
      calcReasonsNow none 200 ⟨"", .absent, .absent⟩ ⟨false⟩ 7 :=
  C4_deterministic_given_clock.1 none 200 ⟨"", .absent, .absent⟩ ⟨false⟩ 7
    (fun _ => 7) (fun _ => rfl)

/-- C8: a grammar error in the response `Cache-Control` header — or, when a
request is supplied, in the request `Cache-Control` header — makes
`calcReasons` return exactly the triple of the nil reason list, the zero
time value and that error (`reasons.go` lines 57-66): no partial reasons or
directives accompany an error. -/
theorem C8_grammar_error_aborts :
    (∀ req statusCode respHeaders opts now e,
        ParseResponseCacheControl (RespHeaders.cacheControl respHeaders) = .error e →
        calcReasonsNow req statusCode respHeaders opts now = ([], 0, some e)) ∧
    (∀ r statusCode respHeaders opts now respDir e,
        ParseResponseCacheControl (RespHeaders.cacheControl respHeaders) = .ok respDir →
        ParseRequestCacheControl (Request.cacheControl r) = .error e →
        calcReasonsNow (some r) statusCode respHeaders opts now = ([], 0, some e)) := by
  constructor
  · intro req s hdrs opts now e h
    unfold calcReasonsNow calcReasons
    rw [h]
  · intro r s hdrs opts now respDir e h1 h2
    unfold calcReasonsNow calcReasons
    rw [h1]
    dsimp only
    rw [h2]

/-- C8 witness: the abort theorem applied to the concrete malformed header
value `max-age` (bare, no argument), which fails to parse. -/
theorem C8_grammar_error_aborts_witness :
    calcReasonsNow none 200 ⟨"max-age", .absent, .absent⟩ ⟨false⟩ 42 =
      ([], 0, some .maxAgeDeltaSeconds) :=
  C8_grammar_error_aborts.1 none 200 ⟨"max-age", .absent, .absent⟩ ⟨false⟩ 42
    .maxAgeDeltaSeconds rfl

/-- C2: in the specification's Freshness Engine (spec section 4.3, modelled
here because the heuristic-expiration code is not under `src/`), whenever no
shared-cache `s-maxage` applies, `max-age` is absent and there is no
`Expires` header, a present `Last-Modified` yields the expiration
`now + min(0.10 × (Date − Last-Modified), 24h)`; in particular a
`Last-Modified` 70000 hours before `Date` yields exactly `now + 24h`, within
the claimed 60-second tolerance. -/
theorem C2_heuristic_freshness :
    (∀ (respDir : ResponseCacheDirectives) (date lm : GoTime) (opts : Options)
       (now : GoTime),
       ¬(respDir.SMaxAge ≠ -1 ∧ opts.PrivateCache = false) →
       respDir.MaxAge = -1 →
       expirationSpec respDir date .absent (some lm) opts now =
         .ok (.instant (now + min ((date - lm) / 10) twentyFourHours))) ∧
    (∀ now date : GoTime,
       expirationSpec {} date .absent (some (date - 70000 * 3600)) ⟨false⟩ now =
         .ok (.instant (now + 86400)) ∧
       ((now + 86400) - (now + twentyFourHours)).natAbs ≤ 60) := by
  constructor
  · intro respDir date lm opts now hs hm
    by_cases hsm : respDir.SMaxAge = -1
    · simp [expirationSpec, hsm, hm, HeaderDate.present]
    · have hp : opts.PrivateCache = true := by
        rcases Bool.eq_false_or_eq_true opts.PrivateCache with h | h
        · exact h
        · exact absurd ⟨hsm, h⟩ hs
      simp [expirationSpec, hsm, hm, hp, HeaderDate.present]
  · intro now date
    have hd : date - (date - 70000 * 3600) = 252000000 := by ring
    constructor
    · simp only [expirationSpec, HeaderDate.present]
      norm_num [hd, twentyFourHours]
    · simp [twentyFourHours]

/-- C2 witness: the heuristic theorem applied at a concrete context
(`Date` at instant 100, `Last-Modified` at instant 90, shared cache,
`now` 50). -/
theorem C2_heuristic_freshness_witness :
    expirationSpec {} 100 .absent (some 90) ⟨false⟩ 50 =
      .ok (.instant (50 + min ((100 - 90) / 10) twentyFourHours)) :=
  C2_heuristic_freshness.1 {} 100 90 ⟨false⟩ 50 (by decide) rfl

theorem not_uncachable_mem_methodReasons (m : String) (f : Bool) :
    Reason.ReasonResponseUncachableByDefault ∉ methodReasons m f := by
  unfold methodReasons
  split_ifs <;> simp

theorem not_uncachable_mem_requestReasons (r : Request) (reqDir : RequestCacheDirectives)
    (respDir : ResponseCacheDirectives) (hdrs : RespHeaders) (opts : Options) :
    Reason.ReasonResponseUncachableByDefault ∉ requestReasons r reqDir respDir hdrs opts := by
  unfold requestReasons
  intro h
  rcases List.mem_append.mp h with h1 | h1
  · rcases List.mem_append.mp h1 with h2 | h2
    · exact not_uncachable_mem_methodReasons _ _ h2
    · revert h2; split_ifs <;> simp
  · revert h1; split_ifs <;> simp

theorem not_uncachable_mem_respReasons (respDir : ResponseCacheDirectives) (opts : Options) :
    Reason.ReasonResponseUncachableByDefault ∉ respReasons respDir opts := by
  unfold respReasons
  intro h
  rcases List.mem_append.mp h with h1 | h1 <;> revert h1 <;> split_ifs <;> simp

/-- The default-cacheability disjunction spelled out: the gate passes exactly
when one of the claim's five conditions holds. -/
theorem defaultCachable_eq_true_iff (respDir : ResponseCacheDirectives)
    (hdrs : RespHeaders) (statusCode : Int) (opts : Options) :
    defaultCachable respDir hdrs statusCode opts = true ↔
      (hdrs.expires.present = true ∨ respDir.MaxAge ≠ -1 ∨
       (respDir.SMaxAge ≠ -1 ∧ opts.PrivateCache = false) ∨
       statusCode ∈ ([200, 203, 204, 206, 300, 301, 404, 405, 410, 414, 501] : List Int) ∨
       respDir.Public = true) := by
  unfold defaultCachable cachableStatusCode
  simp only [Bool.or_eq_true, Bool.and_eq_true, bne_iff_ne, beq_iff_eq,
    Bool.not_eq_true', List.mem_cons, List.mem_singleton, List.not_mem_nil, or_false]
  tauto

/-- Shape of a successful `calcReasonsNow` evaluation: the expiration is
`calcExpiration` of the parsed response directives, and the reason list is
the source-ordered concatenation of the request-phase reasons (when a
request is supplied and its directives parse), the response-directive
reasons and the default-cacheability gate. -/
theorem calcReasonsNow_ok (req : Option Request) (statusCode : Int) (hdrs : RespHeaders)
    (opts : Options) (now : GoTime) (rv : List Reason) (t : GoTime)
    (respDir : ResponseCacheDirectives)
    (hp : ParseResponseCacheControl hdrs.cacheControl = .ok respDir)
    (hc : calcReasonsNow req statusCode hdrs opts now = (rv, t, none)) :
    t = calcExpiration respDir hdrs opts (fun _ => now) ∧
      ((req = none ∧
          rv = respReasons respDir opts ++
            (if defaultCachable respDir hdrs statusCode opts then []
             else [Reason.ReasonResponseUncachableByDefault])) ∨
       (∃ r reqDir, req = some r ∧
          ParseRequestCacheControl r.cacheControl = .ok reqDir ∧
          rv = requestReasons r reqDir respDir hdrs opts ++ respReasons respDir opts ++
            (if defaultCachable respDir hdrs statusCode opts then []
             else [Reason.ReasonResponseUncachableByDefault]))) := by
  unfold calcReasonsNow calcReasons at hc
  rw [hp] at hc
  rcases req with _ | r
  · dsimp only at hc
    rw [Prod.mk.injEq, Prod.mk.injEq] at hc
    exact ⟨hc.2.1.symm, Or.inl ⟨rfl, hc.1.symm⟩⟩
  · dsimp only at hc
    rcases hq : ParseRequestCacheControl r.cacheControl with e | reqDir <;> rw [hq] at hc
    · rw [Prod.mk.injEq, Prod.mk.injEq] at hc
      exact absurd hc.2.2 (by simp)
    · rw [Prod.mk.injEq, Prod.mk.injEq] at hc
      exact ⟨hc.2.1.symm, Or.inr ⟨r, reqDir, rfl, hq, hc.1.symm⟩⟩

/-- Shape of a successful `calcReasonsNow` evaluation over a supplied
request whose directives parse. -/
theorem calcReasonsNow_ok_some (r : Request) (statusCode : Int) (hdrs : RespHeaders)
    (opts : Options) (now : GoTime) (rv : List Reason) (t : GoTime)
    (respDir : ResponseCacheDirectives) (reqDir : RequestCacheDirectives)
    (hp : ParseResponseCacheControl hdrs.cacheControl = .ok respDir)
    (hq : ParseRequestCacheControl r.cacheControl = .ok reqDir)
    (hc : calcReasonsNow (some r) statusCode hdrs opts now = (rv, t, none)) :
    t = calcExpiration respDir hdrs opts (fun _ => now) ∧
      rv = requestReasons r reqDir respDir hdrs opts ++ respReasons respDir opts ++
        (if defaultCachable respDir hdrs statusCode opts then []
         else [Reason.ReasonResponseUncachableByDefault]) := by
  unfold calcReasonsNow calcReasons at hc
  rw [hp] at hc
  dsimp only at hc
  rw [hq] at hc
  rw [Prod.mk.injEq, Prod.mk.injEq] at hc
  exact ⟨hc.2.1.symm, hc.1.symm⟩

/-- C5: a successful evaluation's reason list contains
`ReasonResponseUncachableByDefault` exactly when none of the five
default-cacheability conditions of `reasons.go` lines 155-166 hold: an
`Expires` header, `max-age`, shared-cache `s-maxage`, a default-cacheable
status code, or `public`. -/
theorem C5_uncachable_by_default_iff :
    ∀ req statusCode hdrs opts now rv t respDir,
      ParseResponseCacheControl (RespHeaders.cacheControl hdrs) = .ok respDir →
      calcReasonsNow req statusCode hdrs opts now = (rv, t, none) →
      (Reason.ReasonResponseUncachableByDefault ∈ rv ↔
        ¬(HeaderDate.present (RespHeaders.expires hdrs) = true ∨
          respDir.MaxAge ≠ -1 ∨
          (respDir.SMaxAge ≠ -1 ∧ opts.PrivateCache = false) ∨
          statusCode ∈ ([200, 203, 204, 206, 300, 301, 404, 405, 410, 414, 501] : List Int) ∨
          respDir.Public = true)) := by
  intro req statusCode hdrs opts now rv t respDir hp hc
  obtain ⟨-, hshape⟩ := calcReasonsNow_ok _ _ _ _ _ _ _ _ hp hc
  rw [← defaultCachable_eq_true_iff respDir hdrs statusCode opts]
  rcases hshape with ⟨-, hrv⟩ | ⟨r, reqDir, -, -, hrv⟩ <;> subst hrv
  · by_cases hg : defaultCachable respDir hdrs statusCode opts = true <;>
      simp [hg, List.mem_append, not_uncachable_mem_respReasons]
  · by_cases hg : defaultCachable respDir hdrs statusCode opts = true <;>
      simp [hg, List.mem_append, not_uncachable_mem_respReasons,
        not_uncachable_mem_requestReasons]

/-- C5 witness: a `GET` over a shared cache with status 500 and no freshness
information is uncachable by default; the iff instantiated concretely. -/
theorem C5_uncachable_by_default_iff_witness :
    Reason.ReasonResponseUncachableByDefault ∈
      (calcReasonsNow (some ⟨"GET", "", ""⟩) 500 ⟨"", .absent, .absent⟩ ⟨false⟩ 42).1 ↔
      ¬(HeaderDate.present .absent = true ∨ (-1 : Int) ≠ -1 ∨
        ((-1 : Int) ≠ -1 ∧ false = false) ∨
        (500 : Int) ∈ ([200, 203, 204, 206, 300, 301, 404, 405, 410, 414, 501] : List Int) ∨
        false = true) :=
  C5_uncachable_by_default_iff (some ⟨"GET", "", ""⟩) 500 ⟨"", .absent, .absent⟩ ⟨false⟩ 42
    [.ReasonResponseUncachableByDefault] 0 {} rfl rfl

/-- The freshness-information disjunction of `hasFreshness` spelled out. -/
theorem hasFreshness_eq_true_iff (reqDir : RequestCacheDirectives)
    (respDir : ResponseCacheDirectives) (hdrs : RespHeaders) (opts : Options) :
    hasFreshness reqDir respDir hdrs opts = true ↔
      ((respDir.SMaxAge ≠ -1 ∧ opts.PrivateCache = false) ∨ respDir.MaxAge ≠ -1 ∨
        HeaderDate.present (RespHeaders.expires hdrs) = true) := by
  unfold hasFreshness
  split_ifs with h1 h2 h3 <;>
    simp_all [Bool.and_eq_true, bne_iff_ne, Bool.not_eq_true']
  intro hs
  rcases Bool.eq_false_or_eq_true opts.PrivateCache with hb | hb
  · exact hb
  · exact absurd (h1 hb) hs

theorem post_mem_requestReasons_iff (r : Request) (reqDir : RequestCacheDirectives)
    (respDir : ResponseCacheDirectives) (hdrs : RespHeaders) (opts : Options)
    (hm : r.method = "POST") :
    Reason.ReasonRequestMethodPOST ∈ requestReasons r reqDir respDir hdrs opts ↔
      hasFreshness reqDir respDir hdrs opts = false := by
  unfold requestReasons
  have hmm : methodReasons "POST" (hasFreshness reqDir respDir hdrs opts) =
      if hasFreshness reqDir respDir hdrs opts then []
      else [Reason.ReasonRequestMethodPOST] := rfl
  rw [hm, hmm]
  by_cases hf : hasFreshness reqDir respDir hdrs opts <;>
    simp only [hf, if_true, if_false, List.mem_append] <;>
    constructor <;> intro h <;> first
      | (rcases h with (h | h) | h <;> revert h <;> split_ifs <;> simp)
      | simp_all

theorem authz_not_mem_methodReasons (m : String) (f : Bool) :
    Reason.ReasonRequestAuthorizationHeader ∉ methodReasons m f := by
  unfold methodReasons
  split_ifs <;> simp

theorem authz_mem_requestReasons_iff (r : Request) (reqDir : RequestCacheDirectives)
    (respDir : ResponseCacheDirectives) (hdrs : RespHeaders) (opts : Options)
    (ha : r.authorization ≠ "") :
    Reason.ReasonRequestAuthorizationHeader ∈ requestReasons r reqDir respDir hdrs opts ↔
      ¬(respDir.MustRevalidate = true ∨ respDir.Public = true ∨ respDir.SMaxAge ≠ -1) := by
  unfold requestReasons
  constructor
  · intro h
    rcases List.mem_append.mp h with h1 | h1
    · rcases List.mem_append.mp h1 with h2 | h2
      · exact absurd h2 (authz_not_mem_methodReasons _ _)
      · exfalso; revert h2; split_ifs <;> simp
    · revert h1
      split_ifs with hif
      · intro _; exact hif.2
      · simp
  · intro hn
    refine List.mem_append.mpr (Or.inr ?_)
    rw [if_pos ⟨ha, hn⟩]
    simp

/-- C6: for a supplied `POST` request, a successful evaluation's reason list
contains `ReasonRequestMethodPOST` exactly when the response carries no
explicit freshness information — no shared-cache `s-maxage`, no `max-age`
and no `Expires` header (`reasons.go` lines 73-88 and 234-248). -/
theorem C6_post_iff_no_freshness :
    ∀ r statusCode hdrs opts now rv t reqDir respDir,
      Request.method r = "POST" →
      ParseResponseCacheControl (RespHeaders.cacheControl hdrs) = .ok respDir →
      ParseRequestCacheControl (Request.cacheControl r) = .ok reqDir →
      calcReasonsNow (some r) statusCode hdrs opts now = (rv, t, none) →
      (Reason.ReasonRequestMethodPOST ∈ rv ↔
        ¬((respDir.SMaxAge ≠ -1 ∧ opts.PrivateCache = false) ∨ respDir.MaxAge ≠ -1 ∨
          HeaderDate.present (RespHeaders.expires hdrs) = true)) := by
  intro r statusCode hdrs opts now rv t reqDir respDir hm hp hq hc
  obtain ⟨-, hrv⟩ := calcReasonsNow_ok_some _ _ _ _ _ _ _ _ _ hp hq hc
  subst hrv
  rw [← hasFreshness_eq_true_iff reqDir respDir hdrs opts, Bool.not_eq_true,
    ← post_mem_requestReasons_iff r reqDir respDir hdrs opts hm]
  simp only [List.mem_append]
  constructor
  · intro h
    rcases h with (h | h) | h
    · exact h
    · exact absurd h (by unfold respReasons; intro hx; rcases List.mem_append.mp hx with
        hx | hx <;> revert hx <;> split_ifs <;> simp)
    · revert h; split_ifs <;> simp
  · intro h; exact Or.inl (Or.inl h)

/-- C6 witness: the `POST` iff applied at a concrete context with no
freshness information. -/
theorem C6_post_iff_no_freshness_witness :
    Reason.ReasonRequestMethodPOST ∈
      (calcReasonsNow (some ⟨"POST", "", ""⟩) 200 ⟨"", .absent, .absent⟩ ⟨false⟩ 9).1 ↔
      ¬(((-1 : Int) ≠ -1 ∧ false = false) ∨ (-1 : Int) ≠ -1 ∨
        HeaderDate.present .absent = true) :=
  C6_post_iff_no_freshness ⟨"POST", "", ""⟩ 200 ⟨"", .absent, .absent⟩ ⟨false⟩ 9
    [.ReasonRequestMethodPOST] 0 {} {} rfl rfl rfl rfl

/-- C7: for a supplied request with a non-empty `Authorization` header, a
successful evaluation's reason list contains
`ReasonRequestAuthorizationHeader` exactly when none of `must-revalidate`,
`public` or a present `s-maxage` hold on the response directives
(`reasons.go` lines 117-125). -/
theorem C7_authorization_iff :
    ∀ r statusCode hdrs opts now rv t reqDir respDir,
      Request.authorization r ≠ "" →
      ParseResponseCacheControl (RespHeaders.cacheControl hdrs) = .ok respDir →
      ParseRequestCacheControl (Request.cacheControl r) = .ok reqDir →
      calcReasonsNow (some r) statusCode hdrs opts now = (rv, t, none) →
      (Reason.ReasonRequestAuthorizationHeader ∈ rv ↔
        ¬(respDir.MustRevalidate = true ∨ respDir.Public = true ∨
          respDir.SMaxAge ≠ -1)) := by
  intro r statusCode hdrs opts now rv t reqDir respDir ha hp hq hc
  obtain ⟨-, hrv⟩ := calcReasonsNow_ok_some _ _ _ _ _ _ _ _ _ hp hq hc
  subst hrv
  rw [← authz_mem_requestReasons_iff r reqDir respDir hdrs opts ha]
  simp only [List.mem_append]
  constructor
  · intro h
    rcases h with (h | h) | h
    · exact h
    · exact absurd h (by unfold respReasons; intro hx; rcases List.mem_append.mp hx with
        hx | hx <;> revert hx <;> split_ifs <;> simp)
    · revert h; split_ifs <;> simp
  · intro h; exact Or.inl (Or.inl h)

/-- C7 witness: the `Authorization` iff applied at a concrete context with a
bearer token and no exempting response directive. -/
theorem C7_authorization_iff_witness :
    Reason.ReasonRequestAuthorizationHeader ∈
      (calcReasonsNow (some ⟨"GET", "", "bearer r"⟩) 200 ⟨"", .absent, .absent⟩
        ⟨false⟩ 9).1 ↔
      ¬(false = true ∨ false = true ∨ (-1 : Int) ≠ -1) :=
  C7_authorization_iff ⟨"GET", "", "bearer r"⟩ 200 ⟨"", .absent, .absent⟩ ⟨false⟩ 9
    [.ReasonRequestAuthorizationHeader] 0 {} {} (by simp) rfl rfl rfl

/-- C10: when the Cache-Control headers parse, the expiration instant is
always computed and returned, independently of the cacheability verdict: it
equals `calcExpiration` of the parsed response directives and response
headers — a function taking neither the request, the method, the status code
nor the reason list (`reasons.go` lines 188-213); a `PUT` request with
`max-age=300` still receives the non-zero expiration `now + 300` alongside
its disqualifying reason; and absence of any expiration source returns the
zero time value. -/
theorem C10_expiration_unconditional :
    (∀ req statusCode hdrs opts now rv t respDir,
       ParseResponseCacheControl (RespHeaders.cacheControl hdrs) = .ok respDir →
       calcReasonsNow req statusCode hdrs opts now = (rv, t, none) →
       t = calcExpiration respDir hdrs opts (fun _ => now)) ∧
    (calcReasonsNow (some ⟨"PUT", "", ""⟩) 200 ⟨"max-age=300", .absent, .absent⟩
        ⟨false⟩ 1000 =
      ([.ReasonRequestMethodPUT], 1300, none) ∧ (1300 : GoTime) ≠ 0) ∧
    (∀ respDir hdrs opts now,
       ¬(respDir.SMaxAge ≠ -1 ∧ opts.PrivateCache = false) →
       respDir.MaxAge = -1 →
       HeaderDate.present (RespHeaders.expires hdrs) = false →
       calcExpiration respDir hdrs opts (fun _ => now) = 0) := by
  refine ⟨?_, ⟨rfl, by decide⟩, ?_⟩
  · intro req statusCode hdrs opts now rv t respDir hp hc
    exact (calcReasonsNow_ok _ _ _ _ _ _ _ _ hp hc).1
  · intro respDir hdrs opts now hs hm he
    unfold calcExpiration
    by_cases hsm : respDir.SMaxAge = -1
    · simp [hsm, hm, he]
    · have hpc : opts.PrivateCache = true := by
        rcases Bool.eq_false_or_eq_true opts.PrivateCache with h | h
        · exact h
        · exact absurd ⟨hsm, h⟩ hs
      simp [hsm, hm, hpc, he]

/-- C10 witness: the expiration-shape conjunct applied at a concrete
freshness-free context, whose expiration is the zero time value. -/
theorem C10_expiration_unconditional_witness :
    (0 : GoTime) = calcExpiration {} ⟨"", .absent, .absent⟩ ⟨false⟩ (fun _ => 5) :=
  C10_expiration_unconditional.1 none 200 ⟨"", .absent, .absent⟩ ⟨false⟩ 5 [] 0 {}
    rfl rfl

set_option maxHeartbeats 1000000 in
theorem applyRespDir_maxAge_preserved (acc : ResponseCacheDirectives) (d : RawDirective)
    (acc2 : ResponseCacheDirectives) (hname : (lowerStr d.name == "max-age") = false)
    (h : applyRespDir acc d = .ok acc2) : acc2.MaxAge = acc.MaxAge := by
  have hne : ¬ lowerStr d.name = "max-age" := by
    intro he
    rw [he] at hname
    simp at hname
  unfold applyRespDir at h
  dsimp only at h
  split_ifs at h
  all_goals first
    | exact absurd (by assumption) hne
    | (injection h with h2; rw [← h2])
    | (split at h
       · injection h with h2; rw [← h2]
       · injection h)
    | injection h

theorem applyRespDir_maxAge_nonneg (acc : ResponseCacheDirectives) (d : RawDirective)
    (acc2 : ResponseCacheDirectives) (hname : (lowerStr d.name == "max-age") = true)
    (h : applyRespDir acc d = .ok acc2) : 0 ≤ acc2.MaxAge := by
  have he : lowerStr d.name = "max-age" := by
    have := hname
    simpa using this
  unfold applyRespDir at h
  dsimp only at h
  rw [he] at h
  rcases hpd : parseDeltaSeconds d with _ | v <;> rw [hpd] at h <;> simp at h
  rw [← h]
  exact Int.natCast_nonneg v

theorem interpRespDirs_maxAge_preserved (l : List RawDirective) :
    ∀ acc cd, interpRespDirs acc l = .ok cd →
      (l.any (fun d => lowerStr d.name == "max-age")) = false →
      cd.MaxAge = acc.MaxAge := by
  induction l with
  | nil =>
    intro acc cd h _
    unfold interpRespDirs at h
    injection h with h2
    rw [← h2]
  | cons d ds ih =>
    intro acc cd h hany
    rw [List.any_cons] at hany
    rw [Bool.or_eq_false_iff] at hany
    unfold interpRespDirs at h
    rcases happ : applyRespDir acc d with e | acc2 <;> rw [happ] at h
    · injection h
    · rw [ih acc2 cd h hany.2, applyRespDir_maxAge_preserved acc d acc2 hany.1 happ]

theorem interpRespDirs_maxAge_nonneg_preserved (l : List RawDirective) :
    ∀ acc cd, interpRespDirs acc l = .ok cd → 0 ≤ acc.MaxAge → 0 ≤ cd.MaxAge := by
  induction l with
  | nil =>
    intro acc cd h h0
    unfold interpRespDirs at h
    injection h with h2
    rw [← h2]; exact h0
  | cons d ds ih =>
    intro acc cd h h0
    unfold interpRespDirs at h
    rcases happ : applyRespDir acc d with e | acc2 <;> rw [happ] at h
    · injection h
    · refine ih acc2 cd h ?_
      cases hn : lowerStr d.name == "max-age"
      · rw [applyRespDir_maxAge_preserved acc d acc2 hn happ]; exact h0
      · exact applyRespDir_maxAge_nonneg acc d acc2 hn happ

theorem interpRespDirs_maxAge_nonneg_of_any (l : List RawDirective) :
    ∀ acc cd, interpRespDirs acc l = .ok cd →
      (l.any (fun d => lowerStr d.name == "max-age")) = true → 0 ≤ cd.MaxAge := by
  induction l with
  | nil => intro acc cd _ hany; simp at hany
  | cons d ds ih =>
    intro acc cd h hany
    unfold interpRespDirs at h
    rcases happ : applyRespDir acc d with e | acc2 <;> rw [happ] at h
    · injection h
    · cases hn : lowerStr d.name == "max-age"
      · rw [List.any_cons, hn, Bool.false_or] at hany
        exact ih acc2 cd h hany
      · exact interpRespDirs_maxAge_nonneg_preserved ds acc2 cd h
          (applyRespDir_maxAge_nonneg acc d acc2 hn happ)

theorem digit_char_ne (c x : Char) (hc : c.isDigit = true) (hx : x.isDigit = false) :
    (c == x) = false := by
  cases hq : c == x
  · rfl
  · have he : c = x := eq_of_beq hq
    rw [he] at hc
    rw [hc] at hx
    exact absurd hx (by simp)

/-- The decimal fold of `natFromDigits` computes Mathlib's `Nat.ofDigits`
base-10 value of the digit list (least significant digit first after
reversal). -/
theorem natFromDigits_foldl (ds : List Char) : ∀ a : Nat,
    ds.foldl (fun x c => 10 * x + digitVal c) a =
      a * 10 ^ ds.length + Nat.ofDigits 10 ((ds.map digitVal).reverse) := by
  induction ds with
  | nil => intro a; simp [Nat.ofDigits]
  | cons c cs ih =>
    intro a
    rw [List.foldl_cons, ih (10 * a + digitVal c), List.map_cons, List.reverse_cons,
      Nat.ofDigits_append]
    simp only [List.length_cons, List.length_reverse, List.length_map,
      Nat.ofDigits_singleton]
    ring

theorem natFromDigits_eq_ofDigits (ds : List Char) :
    natFromDigits ds = Nat.ofDigits 10 ((ds.map digitVal).reverse) := by
  unfold natFromDigits
  rw [natFromDigits_foldl ds 0]
  simp

/-- Scanning a digit suffix as the argument of a directive whose `=` was
already consumed pushes every digit onto the argument accumulator. -/
theorem tokGo_digits (ds : List Char) : ∀ (nm ar : List Char) (acc : List RawDirective),
    (∀ c ∈ ds, c.isDigit = true) →
    tokGo ds ⟨nm, ar, true, true, false, false⟩ acc =
      .ok (acc ++ [⟨String.mk nm, true, String.mk (ar ++ ds)⟩]) := by
  induction ds with
  | nil =>
    intro nm ar acc _
    simp [tokGo, TokState.flush]
  | cons c cs ih =>
    intro nm ar acc hd
    have hc := hd c (List.mem_cons_self c cs)
    have h1 : (c == '"') = false := digit_char_ne c '"' hc (by decide)
    have h2 : isBlank c = false := by
      unfold isBlank
      rw [digit_char_ne c ' ' hc (by decide), digit_char_ne c '\t' hc (by decide)]
      rfl
    have h3 : (c == '=') = false := digit_char_ne c '=' hc (by decide)
    rw [tokGo]
    simp only [h1, h2, h3, Bool.false_and, if_false, Bool.and_eq_true]
    rw [show TokState.push ⟨nm, ar, true, true, false, false⟩ c =
        ⟨nm, ar ++ [c], true, true, false, false⟩ from rfl]
    rw [ih nm (ar ++ [c]) acc (fun x hx => hd x (List.mem_cons_of_mem c hx))]
    rw [List.append_assoc]
    rfl

/-- Tokenizing `max-age=<digits>` yields the single raw directive
`max-age` with the digit string as argument. -/
theorem tokenize_maxAge_digits (ds : List Char) (hd : ∀ c ∈ ds, c.isDigit = true) :
    tokenizeCC (String.mk ('m' :: 'a' :: 'x' :: '-' :: 'a' :: 'g' :: 'e' :: '=' :: ds)) =
      .ok [⟨"max-age", true, String.mk ds⟩] := by
  have h8 : tokenizeCC
      (String.mk ('m' :: 'a' :: 'x' :: '-' :: 'a' :: 'g' :: 'e' :: '=' :: ds)) =
      tokGo ds ⟨['m', 'a', 'x', '-', 'a', 'g', 'e'], [], true, true, false, false⟩ [] := rfl
  rw [h8, tokGo_digits ds ['m', 'a', 'x', '-', 'a', 'g', 'e'] [] [] hd]
  rfl

/-- Parsing `max-age=<digits>` as a full header value yields `MaxAge` at the
(clamped) decimal value of the digit string and every other field at its
default. -/
theorem parse_maxAge_digits (ds : List Char) (hne : ds ≠ [])
    (hd : ∀ c ∈ ds, c.isDigit = true) :
    ParseResponseCacheControl ("max-age=" ++ String.mk ds) =
      .ok { MaxAge := (min (natFromDigits ds) deltaSecondsMax : Nat) } := by
  have hs : ("max-age=" ++ String.mk ds) =
      String.mk ('m' :: 'a' :: 'x' :: '-' :: 'a' :: 'g' :: 'e' :: '=' :: ds) := rfl
  have hie : ds.isEmpty = false := by
    cases ds
    · exact absurd rfl hne
    · rfl
  have hall : ds.all Char.isDigit = true := List.all_eq_true.mpr hd
  have hpd : parseDeltaSeconds ⟨"max-age", true, String.mk ds⟩ =
      some (min (natFromDigits ds) deltaSecondsMax) := by
    unfold parseDeltaSeconds
    have hcond : (true && !ds.isEmpty && ds.all Char.isDigit) = true := by
      rw [hie, hall]
      rfl
    rw [if_pos hcond]
  unfold ParseResponseCacheControl
  rw [hs, tokenize_maxAge_digits ds hd]
  unfold interpRespDirs
  rw [show applyRespDir {} ⟨"max-age", true, String.mk ds⟩ =
      (match parseDeltaSeconds ⟨"max-age", true, String.mk ds⟩ with
       | some v => Except.ok { MaxAge := (v : Int) }
       | none => Except.error CCErr.maxAgeDeltaSeconds) from rfl]
  rw [hpd]
  rfl

/-- On every successfully parsed header value, `MaxAge` is the `-1` sentinel
exactly when no `max-age` directive occurs in the input. -/
theorem parse_maxAge_sentinel_iff (s : String) (cd : ResponseCacheDirectives)
    (h : ParseResponseCacheControl s = .ok cd) :
    cd.MaxAge = -1 ↔ mentionsMaxAge s = false := by
  unfold ParseResponseCacheControl at h
  unfold mentionsMaxAge
  rcases ht : tokenizeCC s with e | ds
  · rw [ht] at h
    injection h
  · rw [ht] at h
    dsimp only at h ⊢
    cases hany : ds.any (fun d => lowerStr d.name == "max-age")
    · exact iff_of_true (interpRespDirs_maxAge_preserved ds {} cd h hany) rfl
    · have h0 := interpRespDirs_maxAge_nonneg_of_any ds {} cd h hany
      refine iff_of_false ?_ (by simp)
      intro hm
      rw [hm] at h0
      norm_num at h0

/-- C9: the response-directive parser yields `MaxAge = -1` exactly when the
input carries no `max-age` directive; `max-age=<digits>` parses to the
digits' decimal value (clamped at the representable maximum, spec section
3) — in particular `max-age=20` to 20 and `max-age=0` to 0; and the bare
`max-age`, `max-age=-1` and `max-age=abc` each fail with the max-age
delta-seconds parse error, so `-1` is never produced from real input. -/
theorem C9_maxAge_sentinel :
    (∀ s cd, ParseResponseCacheControl s = .ok cd →
       (cd.MaxAge = -1 ↔ mentionsMaxAge s = false)) ∧
    (∀ ds : List Char, ds ≠ [] → (∀ c ∈ ds, c.isDigit = true) →
       ParseResponseCacheControl ("max-age=" ++ String.mk ds) =
         .ok { MaxAge :=
           (min (Nat.ofDigits 10 ((ds.map digitVal).reverse)) deltaSecondsMax : Nat) }) ∧
    (ParseResponseCacheControl "max-age=20").map ResponseCacheDirectives.MaxAge =
      .ok 20 ∧
    (ParseResponseCacheControl "max-age=0").map ResponseCacheDirectives.MaxAge =
      .ok 0 ∧
    ParseResponseCacheControl "max-age" = .error .maxAgeDeltaSeconds ∧
    ParseResponseCacheControl "max-age=-1" = .error .maxAgeDeltaSeconds ∧
    ParseResponseCacheControl "max-age=abc" = .error .maxAgeDeltaSeconds := by
  refine ⟨parse_maxAge_sentinel_iff, ?_, rfl, rfl, rfl, rfl, rfl⟩
  intro ds hne hd
  rw [parse_maxAge_digits ds hne hd, natFromDigits_eq_ofDigits ds]

/-- C9 witness: the sentinel iff and the digit-value statement applied at
the concrete input `max-age=20`. -/
theorem C9_maxAge_sentinel_witness :
    (({ MaxAge := 20 } : ResponseCacheDirectives).MaxAge = -1 ↔
      mentionsMaxAge "max-age=20" = false) ∧
    ParseResponseCacheControl ("max-age=" ++ String.mk ['2', '0']) =
      .ok { MaxAge :=
        (min (Nat.ofDigits 10 ((['2', '0'].map digitVal).reverse)) deltaSecondsMax :
          Nat) } :=
  ⟨C9_maxAge_sentinel.1 "max-age=20" { MaxAge := 20 } rfl,
   C9_maxAge_sentinel.2.1 ['2', '0'] (by decide) (by decide)⟩

end CacheControl
